import Mathlib

/-!
Shallow embedding of the ecospine-back marketplace backend (Node/Express/
Mongoose) for verification of its specification.

Modelling conventions:
- Mongo collections keyed by _id are modelled as `String → Option Post`
  (a partial map) or, where existential count queries over the whole
  collection matter, as lists of documents.
- JavaScript async functions that can throw are modelled as `Except`-valued
  functions; a thrown error is `.error msg`, and the wrapped messages follow
  the source (for example "Error deleting file: " ++ inner message).
- External effects (uuid generation, the sharp thumbnail library, the
  database accepting or rejecting a write) are passed as explicit parameters
  (fresh file names, a thumbOk flag, a dbOk flag).
- Filesystem contents are a pair of lists of file names (static directory
  and its thumbnails subdirectory); file operations additionally return the
  list of save/delete events they performed, in order, so that ordering
  claims can be stated.
-/

namespace EcoSpine

/-- Post status enum of the post schema: active, inactive or deleted. -/
inductive Status
  | active
  | inactive
  | deleted
deriving DecidableEq, Repr

/-- String form of a status, as stored in Mongo and compared by queries. -/
def statusStr : Status → String
  | .active => "active"
  | .inactive => "inactive"
  | .deleted => "deleted"

/-- A post document (src/src/models/post.model.js).  The _id is the key of
the collection map and is not repeated here; createdAt and the virtual
imageUrl are irrelevant to every claim and omitted; categoryProperties is an
open map never read by the verified operations and omitted. -/
structure Post where
  title : String
  body : String
  price : ℚ
  category : String
  tags : List String
  status : Status
  views : ℕ
  featured : Bool
  image : Option String
  createdBy : Option String
  updatedBy : Option String
  updatedAt : ℕ
deriving DecidableEq, Repr

/-- The posts collection as a partial map from _id to document. -/
def Db : Type := String → Option Post

/-- Pointwise update of the posts collection at one _id. -/
def dbUpdate (db : Db) (id : String) (p : Post) : Db :=
  fun i => if i = id then some p else db i

/-- JavaScript word character test, the regex class backslash-w, which is
the ASCII letters, digits and underscore. -/
def isWordChar (c : Char) : Bool :=
  c.isAlpha || c.isDigit || c = '_'

/-- JavaScript whitespace test for the regex class backslash-s, restricted
to the common ASCII whitespace characters. -/
def isSpaceChar (c : Char) : Bool :=
  c = ' ' || c = '\t' || c = '\n' || c = '\r' || c = '\x0b' || c = '\x0c'

/-- Characters collapsed to a single hyphen by the slug derivation
(whitespace, underscore and hyphen). -/
def isCollapsible (c : Char) : Bool :=
  isSpaceChar c || c = '_' || c = '-'

/-- Drop characters satisfying p from both ends of a character list. -/
def trimChars (p : Char → Bool) (l : List Char) : List Char :=
  ((l.dropWhile p).reverse.dropWhile p).reverse

/-- Replace every maximal run of collapsible characters by one hyphen; the
flag records whether the previous character belonged to a run. -/
def collapseAux : List Char → Bool → List Char
  | [], _ => []
  | c :: rest, inRun =>
    if isCollapsible c then
      if inRun then collapseAux rest true
      else '-' :: collapseAux rest true
    else c :: collapseAux rest false

/-- Slug derivation of the category pre-save hook
(src/src/models/category.model.js lines 83-93): lowercase, trim, strip
characters outside word/whitespace/hyphen, collapse whitespace, underscore
and hyphen runs to single hyphens, trim leading and trailing hyphens. -/
def slugify (s : String) : String :=
  ⟨trimChars (fun c => c = '-')
    (collapseAux
      ((trimChars isSpaceChar (s.data.map Char.toLower)).filter
        (fun c => isWordChar c || isSpaceChar c || c = '-'))
      false)⟩

/-- JavaScript String.prototype.trim on ASCII whitespace. -/
def jsTrim (s : String) : String :=
  ⟨trimChars isSpaceChar s.data⟩

/-- A category document (src/src/models/category.model.js).  Fields not
touched by the verified operations (description, properties, sortOrder,
timestamps) are omitted. -/
structure Category where
  id : String
  name : String
  slug : String
  parentCategory : Option String
  isActive : Bool
  createdBy : String
  updatedBy : Option String
deriving DecidableEq, Repr

/-- The category pre-save hook: when the name path is modified, derive the
slug from the name; otherwise leave the document unchanged. -/
def applySlugHook (c : Category) (nameModified : Bool) : Category :=
  if nameModified then { c with slug := slugify c.name } else c

/-- CategoryController.create: builds a new document from the request body
plus createdBy and calls save, which runs the pre-save hook (the name path
is always modified on a new document) and then inserts subject to the
unique indexes on name and slug. -/
def categoryCreate (cats : List Category) (id name : String)
    (parent : Option String) (uid : String) :
    Except String (Category × List Category) :=
  let c := applySlugHook
    { id := id, name := name, slug := "", parentCategory := parent,
      isActive := true, createdBy := uid, updatedBy := none } true
  if cats.any (fun d => d.name == c.name || d.slug == c.slug) then
    .error "E11000 duplicate key error"
  else
    .ok (c, cats ++ [c])

/-- The update payload of a category update request (partial body). -/
structure CategoryUpdate where
  name : Option String := none
  parentCategory : Option (Option String) := none
  isActive : Option Bool := none
deriving Repr

/-- Field-wise application of a findOneAndUpdate payload to a category
document, plus the updatedBy stamp added by the controller.  Mongoose
findOneAndUpdate applies the update directly in the database and does not
run the pre-save middleware, so the slug hook is not invoked here. -/
def applyCategoryUpdate (c : Category) (u : CategoryUpdate) (uid : String) :
    Category :=
  { c with
    name := u.name.getD c.name,
    parentCategory := u.parentCategory.getD c.parentCategory,
    isActive := u.isActive.getD c.isActive,
    updatedBy := some uid }

/-- Update the first document matching _id = id and isActive = true with f,
returning the updated document (findOneAndUpdate with new: true) and the
updated collection; none when no document matches. -/
def updateFirstActive (cats : List Category) (id : String)
    (f : Category → Category) : Option Category × List Category :=
  match cats with
  | [] => (none, [])
  | c :: rest =>
    if c.id = id ∧ c.isActive = true then (some (f c), f c :: rest)
    else
      let r := updateFirstActive rest id f
      (r.1, c :: r.2)

/-- CategoryController.update (src/src/controllers/category.controller.js
lines 141-182): findOneAndUpdate of the active document with the request
body plus updatedBy; the pre-save hook is not run on this path. -/
def categoryUpdate (cats : List Category) (id : String) (u : CategoryUpdate)
    (uid : String) : Option Category × List Category :=
  updateFirstActive cats id (fun c => applyCategoryUpdate c u uid)

/-- Number of active subcategories referencing the given category as
parent (the first precondition count of CategoryController.delete). -/
def countActiveSubcategories (cats : List Category) (id : String) : ℕ :=
  (cats.filter (fun c => decide (c.parentCategory = some id) && c.isActive)).length

/-- Number of non-deleted posts referencing the given category (the second
precondition count of CategoryController.delete). -/
def countPostsInCategory (posts : List Post) (id : String) : ℕ :=
  (posts.filter (fun p => decide (p.category = id) && decide (p.status ≠ Status.deleted))).length

/-- Outcome of a category deletion request. -/
inductive DeleteCategoryResult
  | badRequest (msg : String)
  | notFound
  | success (c : Category)
deriving DecidableEq, Repr

/-- CategoryController.delete (src/src/controllers/category.controller.js
lines 185-249): first reject when an active subcategory references the
category, then reject when a non-deleted post references it, then soft
delete by findOneAndUpdate setting isActive false and stamping updatedBy;
not found when no active document matches. -/
def categoryDelete (cats : List Category) (posts : List Post)
    (id uid : String) : DeleteCategoryResult × List Category :=
  if 0 < countActiveSubcategories cats id then
    (.badRequest "Cannot delete category with subcategories", cats)
  else if 0 < countPostsInCategory posts id then
    (.badRequest "Cannot delete category that is used in posts", cats)
  else
    match updateFirstActive cats id
        (fun c => { c with isActive := false, updatedBy := some uid }) with
    | (none, _) => (.notFound, cats)
    | (some c, cats2) => (.success c, cats2)

/-- Contents of the static asset directory and its thumbnails
subdirectory, as lists of file names. -/
structure FileStore where
  files : List String
  thumbs : List String
deriving DecidableEq, Repr

/-- An uploaded file as seen by the services: declared original name,
declared MIME type and byte size. -/
structure FileData where
  name : String
  mimetype : String
  size : ℕ
deriving DecidableEq, Repr

/-- A filesystem event performed on an original asset file, recorded so
that ordering properties can be stated. -/
inductive FsEvent
  | savedFile (name : String)
  | deletedFile (name : String)
deriving DecidableEq, Repr

/-- MIME allow-list of EnhancedFileService. -/
def enhancedAllowedMimeTypes : List String :=
  ["image/jpeg", "image/jpg", "image/png", "image/gif", "image/webp", "image/bmp"]

/-- MIME allow-list of the legacy FileService (no bmp). -/
def legacyAllowedMimeTypes : List String :=
  ["image/jpeg", "image/jpg", "image/png", "image/gif", "image/webp"]

/-- The 10MB upload size limit shared by both file services. -/
def maxFileSize : ℕ := 10 * 1024 * 1024

/-- EnhancedFileService.validateFile: size, then MIME type, then file name
presence and length. -/
def validateFile (f : FileData) : Except String Unit :=
  if maxFileSize < f.size then
    .error "File too large. Maximum size: 10MB"
  else if ¬ f.mimetype ∈ enhancedAllowedMimeTypes then
    .error "Invalid file type."
  else if f.name = "" ∨ 255 < f.name.length then
    .error "Invalid file name"
  else
    .ok ()

/-- Prefix test on character lists. -/
def listIsPrefixOf : List Char → List Char → Bool
  | [], _ => true
  | _ :: _, [] => false
  | a :: as, b :: bs => a = b && listIsPrefixOf as bs

/-- JavaScript String.prototype.startsWith, used by the isImageFile check
of EnhancedFileService (mimetype begins with image/). -/
def strStartsWith (s p : String) : Bool := listIsPrefixOf p.data s.data

/-- Result record of EnhancedFileService.save (path fields and pixel
dimensions omitted as no claim reads them). -/
structure FileInfo where
  originalName : String
  fileName : String
  thumbnailName : Option String
  size : ℕ
  mimeType : String
deriving DecidableEq, Repr

/-- EnhancedFileService.save (src/unnamed/part_002 lines 29-68): validate,
write the original under the fresh uuid-based name, then generate a
thumbnail under a thumb_ prefix when the file is an image; thumbnail
failure (thumbOk = false, modelling a sharp error) is non-fatal and yields
a null thumbnail name.  freshName stands for the uuid plus extension. -/
def enhancedSave (st : FileStore) (f : Option FileData) (freshName : String)
    (thumbOk : Bool) : Except String FileInfo × FileStore × List FsEvent :=
  match f with
  | none => (.error "Error saving file: File is required", st, [])
  | some f =>
    match validateFile f with
    | .error e => (.error ("Error saving file: " ++ e), st, [])
    | .ok _ =>
      if strStartsWith f.mimetype "image/" && thumbOk then
        (.ok { originalName := f.name, fileName := freshName,
               thumbnailName := some ("thumb_" ++ freshName),
               size := f.size, mimeType := f.mimetype },
         ⟨st.files ++ [freshName], st.thumbs ++ ["thumb_" ++ freshName]⟩,
         [.savedFile freshName])
      else
        (.ok { originalName := f.name, fileName := freshName,
               thumbnailName := none,
               size := f.size, mimeType := f.mimetype },
         ⟨st.files ++ [freshName], st.thumbs⟩, [.savedFile freshName])

/-- EnhancedFileService.delete (src/unnamed/part_002 lines 223-249):
reject an empty file name, unlink the original when it exists, unlink the
thumb_ thumbnail when it exists (the two unlinks touch disjoint paths, so
the result directory contents are given field-wise), and return true on
every path that passes the name check. -/
def enhancedDelete (st : FileStore) (fileName : String) :
    Except String Bool × FileStore × List FsEvent :=
  if fileName = "" then
    (.error "Error deleting file: File name is required", st, [])
  else
    (.ok true,
     ⟨if fileName ∈ st.files then st.files.erase fileName else st.files,
      if ("thumb_" ++ fileName) ∈ st.thumbs then
        st.thumbs.erase ("thumb_" ++ fileName)
      else st.thumbs⟩,
     if fileName ∈ st.files then [.deletedFile fileName] else [])

/-- Legacy FileService.save (src/unnamed/part_001 lines 116-154): type
check, then size check, then write under the fresh name; no thumbnail. -/
def fileSave (st : FileStore) (f : Option FileData) (freshName : String) :
    Except String String × FileStore × List FsEvent :=
  match f with
  | none => (.error "Error saving file: File is required", st, [])
  | some f =>
    if ¬ f.mimetype ∈ legacyAllowedMimeTypes then
      (.error "Error saving file: Invalid file type.", st, [])
    else if maxFileSize < f.size then
      (.error "Error saving file: File too large. Maximum size: 10MB", st, [])
    else
      (.ok freshName, { st with files := st.files ++ [freshName] },
       [.savedFile freshName])

/-- Legacy FileService.delete (src/unnamed/part_001 lines 175-197): reject
an empty name, unlink the original when present and return true, return
false when it is absent; no thumbnail handling. -/
def fileDelete (st : FileStore) (fileName : String) :
    Except String Bool × FileStore × List FsEvent :=
  if fileName = "" then
    (.error "Error deleting file: File name is required", st, [])
  else if fileName ∈ st.files then
    (.ok true, { st with files := st.files.erase fileName },
     [.deletedFile fileName])
  else
    (.ok false, st, [])

/-- Index of the first occurrence of an event in a trace. -/
def eventIdx (tr : List FsEvent) (e : FsEvent) : Option ℕ :=
  match tr with
  | [] => none
  | x :: rest => if x = e then some 0 else (eventIdx rest e).map (· + 1)

/-- The new image file is saved strictly before the previous one is
deleted: both events occur and the save of the new name comes first. -/
def newBeforeOld (tr : List FsEvent) (newName oldName : String) : Bool :=
  match eventIdx tr (.savedFile newName), eventIdx tr (.deletedFile oldName) with
  | some i, some j => decide (i < j)
  | _, _ => false

/-- Tag input of create/edit: either a comma separated string or a
pre-split list (the typeof check in the services). -/
def parseTags : Sum String (List String) → List String
  | .inl s => ((s.splitOn ",").map jsTrim).filter (fun t => t ≠ "")
  | .inr l => l

/-- Options of AdvancedPostService.getAll, with the source defaults.
featured arrives as a query-string value or null, hence Option String. -/
structure GetAllOptions where
  page : ℕ := 1
  limit : ℕ := 10
  search : String := ""
  category : String := ""
  minPrice : ℚ := 0
  maxPrice : ℚ := 0
  tags : String := ""
  sortBy : String := "createdAt"
  sortOrder : String := "desc"
  status : String := "active"
  featured : Option String := none
deriving Repr

/-- The Mongo filter document built by getAll: present fields are the
conditions added to the query object. -/
structure PostQuery where
  status : String
  search : Option String
  category : Option String
  price : Option (Option ℚ × Option ℚ)
  tags : Option (List String)
  featured : Option Bool
deriving Repr

/-- Query construction of AdvancedPostService.getAll (src/unnamed/part_001
lines 221-250): status always; a text search clause when search is
nonempty; category unless empty or the word all; a price clause when
either bound is positive, carrying a lower bound when minPrice is positive
and an upper bound when maxPrice is positive; a tags in-clause when tags is
nonempty, split on commas and trimmed; a featured clause when the featured
option is not null, true exactly when the string is the word true. -/
def buildQuery (o : GetAllOptions) : PostQuery :=
  { status := o.status,
    search := if o.search = "" then none else some o.search,
    category := if o.category = "" ∨ o.category = "all" then none else some o.category,
    price :=
      if 0 < o.minPrice ∨ 0 < o.maxPrice then
        some (if 0 < o.minPrice then some o.minPrice else none,
              if 0 < o.maxPrice then some o.maxPrice else none)
      else none,
    tags := if o.tags = "" then none else some ((o.tags.splitOn ",").map jsTrim),
    featured := o.featured.map (fun s => decide (s = "true")) }

/-- Whether a post document matches the filter document; textMatch is the
external full-text engine deciding a text clause. -/
def matchesQuery (textMatch : String → Post → Bool) (q : PostQuery)
    (p : Post) : Bool :=
  (statusStr p.status == q.status) &&
  (match q.search with
   | some s => textMatch s p
   | none => true) &&
  (match q.category with
   | some c => p.category == c
   | none => true) &&
  (match q.price with
   | some pr =>
     (match pr.1 with
      | some v => decide (v ≤ p.price)
      | none => true) &&
     (match pr.2 with
      | some v => decide (p.price ≤ v)
      | none => true)
   | none => true) &&
  (match q.tags with
   | some ts => p.tags.any (fun t => ts.contains t)
   | none => true) &&
  (match q.featured with
   | some b => p.featured == b
   | none => true)

/-- The non-price clauses of the getAll filter, used to isolate the price
clause in statements about inclusion. -/
def matchesNonPrice (textMatch : String → Post → Bool) (o : GetAllOptions)
    (p : Post) : Bool :=
  matchesQuery textMatch (buildQuery { o with minPrice := 0, maxPrice := 0 }) p

/-- findOne with _id = id and status not deleted, the lookup shared by
getOne, edit, soft delete and toggleFeatured. -/
def findActive (db : Db) (id : String) : Option Post :=
  match db id with
  | some p => if p.status ≠ Status.deleted then some p else none
  | none => none

/-- The view-tracking mutation of getOne: views incremented by one,
all other fields untouched. -/
def incViews (p : Post) : Post :=
  { p with views := p.views + 1 }

/-- AdvancedPostService.getOne (src/unnamed/part_001 lines 346-370):
reject an empty id, return null for a missing or deleted post, and when
trackView is set increment the views counter and save before returning. -/
def getOne (db : Db) (id : String) (trackView : Bool) :
    Except String (Option Post) × Db :=
  if id = "" then
    (.error "Error fetching post: Post ID is required", db)
  else
    match findActive db id with
    | none => (.ok none, db)
    | some p =>
      if trackView then
        (.ok (some (incViews p)), dbUpdate db id (incViews p))
      else
        (.ok (some p), db)

/-- AdvancedPostService.delete (src/unnamed/part_001 lines 426-453):
reject an empty id, return null when no non-deleted post matches, else
findByIdAndUpdate setting status deleted and stamping updatedBy. -/
def postDelete (db : Db) (id uid : String) (now : ℕ) :
    Except String (Option Post) × Db :=
  if id = "" then
    (.error "Error deleting post: Post ID is required", db)
  else
    match findActive db id with
    | none => (.ok none, db)
    | some p =>
      let p1 := { p with status := Status.deleted, updatedBy := some uid,
                         updatedAt := now }
      (.ok (some p1), dbUpdate db id p1)

/-- The findByIdAndUpdate payload of toggleFeatured: featured negated,
updatedBy stamped, updatedAt refreshed by the timestamps option, all other
fields untouched. -/
def togglePost (p : Post) (uid : String) (now : ℕ) : Post :=
  { p with featured := !p.featured, updatedBy := some uid, updatedAt := now }

/-- AdvancedPostService.toggleFeatured (src/unnamed/part_001 lines
514-536): throw when no non-deleted post matches, else findByIdAndUpdate
negating featured and stamping updatedBy (timestamps refresh updatedAt). -/
def toggleFeatured (db : Db) (id uid : String) (now : ℕ) :
    Except String Post × Db :=
  match findActive db id with
  | none => (.error "Error toggling featured status: Post not found", db)
  | some p =>
    (.ok (togglePost p uid now), dbUpdate db id (togglePost p uid now))

/-- Request body of a post creation. -/
structure CreateData where
  title : String
  body : String
  price : ℚ
  category : String
  tagsRaw : Sum String (List String) := .inr []
  featured : Bool := false
deriving Repr

/-- The document inserted by postModel.create in AdvancedPostService.create:
the body fields with tags normalized, the stored image name or null, the
creator stamp, and the schema defaults status active and views 0. -/
def mkNewPost (d : CreateData) (image : Option String) (uid : String)
    (now : ℕ) : Post :=
  { title := d.title, body := d.body, price := d.price,
    category := d.category, tags := parseTags d.tagsRaw,
    status := Status.active, views := 0, featured := d.featured,
    image := image, createdBy := some uid, updatedBy := none,
    updatedAt := now }

/-- Errors escaping AdvancedPostService.create: either the wrapped Error
thrown at the end of the catch block, or the ReferenceError raised inside
the catch block itself. -/
inductive JsErr
  | wrapped (msg : String)
  | referenceErrorFileInfo
deriving DecidableEq, Repr

/-- The guard of the cleanup branch in the catch block of
AdvancedPostService.create (src/unnamed/part_001 line 334).  In the source,
fileInfo is declared with let inside the try block (line 306), and let
bindings are scoped to their enclosing block, so the catch block does not
see fileInfo.  Evaluating the guard image and-and fileInfo short-circuits
when image is falsy and otherwise reads the unbound identifier fileInfo,
raising a ReferenceError that propagates to the caller before the wrapping
throw on line 341 is reached. -/
def createCatchGuard (image : Option FileData) (e : String) : JsErr :=
  match image with
  | none => .wrapped ("Error creating post: " ++ e)
  | some _ => .referenceErrorFileInfo

/-- AdvancedPostService.create (src/unnamed/part_001 lines 304-343): save
the image first when one is supplied, normalize tags, insert the document;
any failure lands in the catch block modelled by createCatchGuard, which
never reaches the compensating enhancedFileService.delete call.  newId is
the _id Mongo assigns; dbOk models whether the insert succeeds. -/
def advCreate (db : Db) (st : FileStore) (d : CreateData)
    (image : Option FileData) (uid newId freshName : String)
    (thumbOk : Bool) (dbOk : Bool) (now : ℕ) :
    Except JsErr Post × Db × FileStore :=
  match image with
  | some f =>
    match enhancedSave st (some f) freshName thumbOk with
    | (.error e, st1, _) => (.error (createCatchGuard image e), db, st1)
    | (.ok fi, st1, _) =>
      if dbOk then
        let p := mkNewPost d (some fi.fileName) uid now
        (.ok p, dbUpdate db newId p, st1)
      else
        (.error (createCatchGuard image "post validation failed"), db, st1)
  | none =>
    if dbOk then
      let p := mkNewPost d none uid now
      (.ok p, dbUpdate db newId p, st)
    else
      (.error (createCatchGuard none "post validation failed"), db, st)

/-- Partial update body of a post edit. -/
structure EditData where
  title : Option String := none
  body : Option String := none
  price : Option ℚ := none
  category : Option String := none
  tagsRaw : Option (Sum String (List String)) := none
  featured : Option Bool := none
deriving Repr

/-- findByIdAndUpdate payload application: set the supplied fields, the
updatedBy stamp when the service adds one (the advanced service does, the
legacy one does not), the new image name when one was stored, and refresh
the updatedAt timestamp. -/
def applyEdit (p : Post) (d : EditData) (uid : Option String)
    (newImage : Option String) (now : ℕ) : Post :=
  { p with
    title := d.title.getD p.title,
    body := d.body.getD p.body,
    price := d.price.getD p.price,
    category := d.category.getD p.category,
    tags := (d.tagsRaw.map parseTags).getD p.tags,
    featured := d.featured.getD p.featured,
    updatedBy := match uid with
      | some u => some u
      | none => p.updatedBy,
    image := match newImage with
      | some n => some n
      | none => p.image,
    updatedAt := now }

/-- The try/catch around the old-image delete in both edit paths: the
delete result or error is discarded (console warning only) and the state
and events are kept. -/
def delSwallow (st : FileStore) (old : String) : FileStore × List FsEvent :=
  ((enhancedDelete st old).2.1, (enhancedDelete st old).2.2)

/-- Same swallowing wrapper for the legacy FileService delete. -/
def legacyDelSwallow (st : FileStore) (old : String) :
    FileStore × List FsEvent :=
  ((fileDelete st old).2.1, (fileDelete st old).2.2)

/-- AdvancedPostService.edit (src/unnamed/part_001 lines 373-423): reject
an empty id, throw when no non-deleted post matches, save the new image
first when one is supplied, then best-effort delete the previous image
(the truthiness guard skips a null or empty stored name), then
findByIdAndUpdate with the body, updatedBy and the new image name. -/
def advEdit (db : Db) (st : FileStore) (d : EditData) (id uid : String)
    (image : Option FileData) (freshName : String) (thumbOk : Bool)
    (now : ℕ) : Except String Post × Db × FileStore × List FsEvent :=
  if id = "" then
    (.error "Error updating post: Post ID is required", db, st, [])
  else
    match findActive db id with
    | none => (.error "Error updating post: Post not found", db, st, [])
    | some p =>
      match image with
      | none =>
        let p1 := applyEdit p d (some uid) none now
        (.ok p1, dbUpdate db id p1, st, [])
      | some f =>
        match enhancedSave st (some f) freshName thumbOk with
        | (.error e, st1, ev1) =>
          (.error ("Error updating post: " ++ e), db, st1, ev1)
        | (.ok fi, st1, ev1) =>
          (.ok (applyEdit p d (some uid) (some fi.fileName) now),
           dbUpdate db id (applyEdit p d (some uid) (some fi.fileName) now),
           (match p.image with
            | some old =>
              if old = "" then st1 else (delSwallow st1 old).1
            | none => st1),
           ev1 ++ (match p.image with
            | some old =>
              if old = "" then [] else (delSwallow st1 old).2
            | none => []))

/-- Legacy PostService.updateWithImage (src/unnamed/part_003 lines 56-97):
findById with no status condition, then, when an image is supplied,
best-effort delete of the old image FIRST, save of the new image second,
then findByIdAndUpdate with the new name; no updatedBy stamp.  Tag
normalization does not exist on this path. -/
def updateWithImage (db : Db) (st : FileStore) (id : String) (d : EditData)
    (image : Option FileData) (freshName : String) (now : ℕ) :
    Except String (Option Post) × Db × FileStore × List FsEvent :=
  if id = "" then
    (.error "Error updating post with image: Post ID is required", db, st, [])
  else
    match db id with
    | none =>
      (.error "Error updating post with image: Post not found", db, st, [])
    | some p =>
      match image with
      | none =>
        let p1 := applyEdit p d none none now
        (.ok (some p1), dbUpdate db id p1, st, [])
      | some f =>
        let delRes :=
          match p.image with
          | some old =>
            if old = "" then (st, ([] : List FsEvent))
            else legacyDelSwallow st old
          | none => (st, [])
        match fileSave delRes.1 (some f) freshName with
        | (.error e, st2, ev2) =>
          (.error ("Error updating post with image: " ++ e), db, st2,
           delRes.2 ++ ev2)
        | (.ok fn, st2, ev2) =>
          let p1 := applyEdit p d none (some fn) now
          (.ok (some p1), dbUpdate db id p1, st2, delRes.2 ++ ev2)

/-- The action enum of the activity log schema. -/
inductive LogAction
  | LOGIN
  | LOGOUT
  | LOGIN_FAILED
  | POST_CREATED
  | POST_UPDATED
  | POST_DELETED
  | POST_VIEWED
  | USER_CREATED
  | USER_UPDATED
  | USER_ACTIVATED
  | USER_DEACTIVATED
  | FILE_UPLOADED
  | FILE_DELETED
  | SYSTEM_ACCESS
  | PERMISSION_DENIED
deriving DecidableEq, Repr

/-- The resource enum of the activity log schema. -/
inductive LogResource
  | post
  | user
  | file
  | system
deriving DecidableEq, Repr

/-- Input of logActivity; user and ipAddress may be absent (the logging
middleware passes null for an unauthenticated request), which fails the
required-field validation of the schema. -/
structure LogData where
  user : Option String
  action : LogAction
  resource : LogResource
  resourceId : Option String := none
  ipAddress : Option String
  userAgent : Option String := none
  success : Bool := true
  errorMessage : Option String := none
deriving DecidableEq, Repr

/-- A persisted activity log document (validated: user and ipAddress
present, enums well-typed). -/
structure LogEntry where
  user : String
  action : LogAction
  resource : LogResource
  resourceId : Option String
  ipAddress : String
  userAgent : Option String
  success : Bool
  errorMessage : Option String
deriving DecidableEq, Repr

/-- The validated ActivityLog document built from an input whose required
fields are present. -/
def mkLogEntry (d : LogData) (u ip : String) : LogEntry :=
  { user := u, action := d.action, resource := d.resource,
    resourceId := d.resourceId, ipAddress := ip,
    userAgent := d.userAgent, success := d.success,
    errorMessage := d.errorMessage }

/-- Construction and save of a new ActivityLog document: the schema
requires user and ipAddress; dbOk models an infrastructure failure of the
write.  On success the document is appended (append-only collection). -/
def logSave (logs : List LogEntry) (d : LogData) (dbOk : Bool) :
    Except String (LogEntry × List LogEntry) :=
  match d.user, d.ipAddress with
  | some u, some ip =>
    if dbOk then
      .ok (mkLogEntry d u ip, logs ++ [mkLogEntry d u ip])
    else
      .error "database write failed"
  | _, _ => .error "ActivityLog validation failed"

/-- activityLogSchema.statics.logActivity
(src/src/models/activityLog.model.js lines 74-84): construct and save
inside a try block; any error is caught, reported to the console, and null
is returned, so no error reaches the caller and the collection is
unchanged on failure.  The return type carries no error component. -/
def logActivity (logs : List LogEntry) (d : LogData) (dbOk : Bool) :
    Option LogEntry × List LogEntry :=
  match logSave logs d dbOk with
  | .ok r => (some r.1, r.2)
  | .error _ => (none, logs)

/-- Decidable equality for Except results, used to evaluate concrete runs
of the services. -/
instance instDecEqExcept {α β : Type} [DecidableEq α] [DecidableEq β] :
    DecidableEq (Except α β) := fun a b =>
  match a, b with
  | .ok x, .ok y =>
    if h : x = y then .isTrue (by rw [h]) else .isFalse (by simp [h])
  | .error x, .error y =>
    if h : x = y then .isTrue (by rw [h]) else .isFalse (by simp [h])
  | .ok _, .error _ => .isFalse (by simp)
  | .error _, .ok _ => .isFalse (by simp)

/-- Characterization of the findOne lookup with the not-deleted filter. -/
theorem findActive_eq_some (db : Db) (id : String) (p : Post) :
    findActive db id = some p ↔ db id = some p ∧ p.status ≠ Status.deleted := by
  unfold findActive
  cases hdb : db id with
  | none => simp
  | some q =>
    show (if q.status ≠ Status.deleted then some q else none) = some p ↔
      some q = some p ∧ p.status ≠ Status.deleted
    by_cases hq : q.status = Status.deleted
    · rw [if_neg (not_not_intro hq)]
      constructor
      · intro h; exact Option.noConfusion h
      · rintro ⟨h1, h2⟩; cases h1; exact absurd hq h2
    · rw [if_pos hq]
      constructor
      · intro h; refine ⟨h, ?_⟩; cases h; exact hq
      · exact fun h => h.1

/-- A document returned by updateFirstActive is the image under f of a
stored document that was active and had the requested id. -/
theorem updateFirstActive_some_shape (id : String) (f : Category → Category) :
    ∀ (cats : List Category) (c : Category) (cats2 : List Category),
      updateFirstActive cats id f = (some c, cats2) →
      ∃ c0, c0 ∈ cats ∧ c0.id = id ∧ c0.isActive = true ∧ c = f c0 := by
  intro cats
  induction cats with
  | nil =>
    intro c cats2 h
    simp [updateFirstActive] at h
  | cons a rest ih =>
    intro c cats2 h
    by_cases hc : a.id = id ∧ a.isActive = true
    · rw [updateFirstActive, if_pos hc] at h
      injection h with h1 h2
      exact ⟨a, List.mem_cons_self a rest, hc.1, hc.2, (Option.some.inj h1).symm⟩
    · rw [updateFirstActive, if_neg hc] at h
      injection h with h1 h2
      obtain ⟨c0, hmem, hcid, hact, hce⟩ :=
        ih c (updateFirstActive rest id f).2 (by rw [← h1])
      exact ⟨c0, List.mem_cons_of_mem a hmem, hcid, hact, hce⟩

/-- Demonstration category whose slug was derived from its name on
creation. -/
def oldNameCat : Category :=
  { id := "c1", name := "Old Name", slug := "old-name", parentCategory := none,
    isActive := true, createdBy := "u1", updatedBy := none }

/-- C2: the category create path derives the slug from the name through the
pre-save hook, but the update path goes through findOneAndUpdate, which
does not run the pre-save hook, so a name change through update leaves the
stored slug unchanged: updating the name to New Name keeps slug old-name
although the derivation of New Name is new-name. -/
theorem C2_update_does_not_rederive_slug :
    slugify "Old Name" = "old-name" ∧
    slugify "New Name" = "new-name" ∧
    categoryCreate [] "c1" "Old Name" none "u1" =
      .ok (oldNameCat, [oldNameCat]) ∧
    (categoryUpdate [oldNameCat] "c1" { name := some "New Name" } "u2").1 =
      some { id := "c1", name := "New Name", slug := "old-name",
             parentCategory := none, isActive := true, createdBy := "u1",
             updatedBy := some "u2" } := by
  refine ⟨by decide, by decide, ?_, by decide⟩
  decide

/-- C7: the category deletion preconditions are checked in order: an active
subcategory rejects the request regardless of posts; otherwise a non-deleted
post referencing the category rejects it; otherwise the active document is
soft deleted with isActive set to false and updatedBy stamped. -/
theorem C7_category_delete_check_order (cats : List Category)
    (posts : List Post) (id uid : String) :
    (0 < countActiveSubcategories cats id →
      categoryDelete cats posts id uid =
        (.badRequest "Cannot delete category with subcategories", cats)) ∧
    (countActiveSubcategories cats id = 0 →
      0 < countPostsInCategory posts id →
      categoryDelete cats posts id uid =
        (.badRequest "Cannot delete category that is used in posts", cats)) ∧
    (countActiveSubcategories cats id = 0 →
      countPostsInCategory posts id = 0 →
      ∀ c cats2,
        updateFirstActive cats id
          (fun c0 => { c0 with isActive := false, updatedBy := some uid }) =
          (some c, cats2) →
        categoryDelete cats posts id uid = (.success c, cats2) ∧
          c.isActive = false ∧ c.updatedBy = some uid) := by
  refine ⟨?_, ?_, ?_⟩
  · intro h
    rw [categoryDelete, if_pos h]
  · intro h0 h1
    rw [categoryDelete, if_neg (by rw [h0]; exact Nat.lt_irrefl 0), if_pos h1]
  · intro h0 h1 c cats2 hupd
    obtain ⟨c0, _, _, _, hce⟩ :=
      updateFirstActive_some_shape id _ cats c cats2 hupd
    refine ⟨?_, ?_, ?_⟩
    · rw [categoryDelete, if_neg (by rw [h0]; exact Nat.lt_irrefl 0),
        if_neg (by rw [h1]; exact Nat.lt_irrefl 0), hupd]
    · rw [hce]
    · rw [hce]

/-- Demonstration parent category and its active subcategory. -/
def parentCat : Category :=
  { id := "c1", name := "Parent", slug := "parent", parentCategory := none,
    isActive := true, createdBy := "u1", updatedBy := none }

/-- Demonstration subcategory of parentCat. -/
def childCat : Category :=
  { id := "c2", name := "Child", slug := "child", parentCategory := some "c1",
    isActive := true, createdBy := "u1", updatedBy := none }

/-- Witness for C7: deleting the parent of one active subcategory is
rejected; deleting the subcategory first and then the parent succeeds. -/
theorem C7_category_delete_check_order_witness :
    categoryDelete [parentCat, childCat] [] "c1" "u9" =
      (.badRequest "Cannot delete category with subcategories",
       [parentCat, childCat]) ∧
    categoryDelete [parentCat, childCat] [] "c2" "u9" =
      (.success { childCat with isActive := false, updatedBy := some "u9" },
       [parentCat, { childCat with isActive := false, updatedBy := some "u9" }]) ∧
    categoryDelete
      [parentCat, { childCat with isActive := false, updatedBy := some "u9" }]
      [] "c1" "u9" =
      (.success { parentCat with isActive := false, updatedBy := some "u9" },
       [{ parentCat with isActive := false, updatedBy := some "u9" },
        { childCat with isActive := false, updatedBy := some "u9" }]) := by
  refine ⟨(C7_category_delete_check_order [parentCat, childCat] [] "c1" "u9").1
    (by decide), ?_, ?_⟩
  · exact ((C7_category_delete_check_order [parentCat, childCat] [] "c2" "u9").2.2
      (by decide) (by decide) _ _ (by decide)).1
  · exact ((C7_category_delete_check_order
      [parentCat, { childCat with isActive := false, updatedBy := some "u9" }]
      [] "c1" "u9").2.2 (by decide) (by decide) _ _ (by decide)).1

/-- C8: logActivity never raises to its caller: its return type has no
error component, a failed save leaves the collection unchanged and yields
null, and a successful save appends exactly the new document. -/
theorem C8_logActivity_never_raises (logs : List LogEntry) (d : LogData)
    (dbOk : Bool) :
    (∀ msg, logSave logs d dbOk = .error msg →
      logActivity logs d dbOk = (none, logs)) ∧
    (∀ r, logSave logs d dbOk = .ok r →
      logActivity logs d dbOk = (some r.1, logs ++ [r.1])) := by
  constructor
  · intro msg hmsg
    rw [logActivity, hmsg]
  · intro r hr
    have hshape : r.2 = logs ++ [r.1] := by
      cases hu : d.user with
      | none =>
        rw [logSave, hu] at hr
        exact Except.noConfusion hr
      | some u =>
        cases hip : d.ipAddress with
        | none =>
          rw [logSave, hu, hip] at hr
          exact Except.noConfusion hr
        | some ip =>
          rw [logSave, hu, hip] at hr
          cases dbOk with
          | false =>
            have hr2 : (Except.error "database write failed" :
                Except String (LogEntry × List LogEntry)) = Except.ok r := hr
            exact Except.noConfusion hr2
          | true =>
            have hr2 : Except.ok (mkLogEntry d u ip,
                logs ++ [mkLogEntry d u ip]) = Except.ok r := hr
            injection hr2 with h
            rw [← h]
    rw [logActivity, hr, ← hshape]

/-- Demonstration log input with no user reference (as the logging
middleware produces for an unauthenticated request), failing the schema
validation on save. -/
def demoBadLog : LogData :=
  { user := none, action := LogAction.LOGIN, resource := LogResource.system,
    ipAddress := some "127.0.0.1" }

/-- Witness for C8: a failing save is swallowed, yielding null and an
unchanged collection. -/
theorem C8_logActivity_never_raises_witness :
    logActivity [] demoBadLog true = (none, []) :=
  (C8_logActivity_never_raises [] demoBadLog true).1
    "ActivityLog validation failed" rfl

/-- C10: soft delete is not idempotent at the service interface: on a post
whose status is already deleted, delete returns null and the collection,
including the stored record with its status and updatedBy, is unchanged. -/
theorem C10_delete_on_deleted_returns_null (db : Db) (id uid : String)
    (now : ℕ) (p : Post) (hid : id ≠ "") (hp : db id = some p)
    (hdel : p.status = Status.deleted) :
    postDelete db id uid now = (.ok none, db) ∧
    (postDelete db id uid now).2 id = some p := by
  have hfa : findActive db id = none := by
    unfold findActive
    rw [hp]
    show (if p.status ≠ Status.deleted then some p else none) = none
    rw [if_neg (not_not_intro hdel)]
  constructor
  · rw [postDelete, if_neg hid, hfa]
  · rw [postDelete, if_neg hid, hfa]
    exact hp

/-- Demonstration post that is already soft deleted. -/
def deletedPost : Post :=
  { title := "T", body := "Bbbbbbbbbb", price := 5, category := "c1",
    tags := [], status := Status.deleted, views := 3, featured := false,
    image := none, createdBy := some "u1", updatedBy := some "u1",
    updatedAt := 0 }

/-- Demonstration posts collection holding only deletedPost under p1. -/
def dbDeleted : Db := fun i => if i = "p1" then some deletedPost else none

/-- Witness for C10 at a concrete deleted post. -/
theorem C10_delete_on_deleted_returns_null_witness :
    postDelete dbDeleted "p1" "u9" 7 = (.ok none, dbDeleted) ∧
    (postDelete dbDeleted "p1" "u9" 7).2 "p1" = some deletedPost :=
  C10_delete_on_deleted_returns_null dbDeleted "p1" "u9" 7 deletedPost
    (by decide) (by decide) (by decide)

/-- C3 counterexample: on an empty store the original a.jpg does not
exist, yet EnhancedFileService delete returns true, while the claim
requires the return value to be false when the original did not exist. -/
theorem C3_delete_true_on_missing_original :
    "a.jpg" ∉ (FileStore.mk [] []).files ∧
    enhancedDelete (FileStore.mk [] []) "a.jpg" =
      (.ok true, FileStore.mk [] [], []) := by
  exact ⟨by decide, by decide⟩

/-- C3 (amended): for every nonempty file name, delete removes the
original when present and its thumbnail when present, never throws (also
when the thumbnail or even the original is missing), and returns true
unconditionally rather than reporting whether the original existed. -/
theorem C3_delete_removes_both_returns_true (st : FileStore)
    (fileName : String) (h : fileName ≠ "") (hf : st.files.Nodup)
    (ht : st.thumbs.Nodup) :
    (enhancedDelete st fileName).1 = .ok true ∧
    fileName ∉ (enhancedDelete st fileName).2.1.files ∧
    ("thumb_" ++ fileName) ∉ (enhancedDelete st fileName).2.1.thumbs := by
  refine ⟨?_, ?_, ?_⟩
  · rw [enhancedDelete, if_neg h]
  · rw [enhancedDelete, if_neg h]
    show fileName ∉
      (if fileName ∈ st.files then st.files.erase fileName else st.files)
    by_cases hmem : fileName ∈ st.files
    · rw [if_pos hmem]
      exact hf.not_mem_erase
    · rw [if_neg hmem]
      exact hmem
  · rw [enhancedDelete, if_neg h]
    show ("thumb_" ++ fileName) ∉
      (if ("thumb_" ++ fileName) ∈ st.thumbs then
        st.thumbs.erase ("thumb_" ++ fileName)
      else st.thumbs)
    by_cases hth : ("thumb_" ++ fileName) ∈ st.thumbs
    · rw [if_pos hth]
      exact ht.not_mem_erase
    · rw [if_neg hth]
      exact hth

/-- Witness for the amended C3 on a store holding the original, its
thumbnail and an unrelated file. -/
theorem C3_delete_removes_both_returns_true_witness :
    (enhancedDelete ⟨["a.jpg", "b.png"], ["thumb_a.jpg"]⟩ "a.jpg").1 =
      .ok true ∧
    "a.jpg" ∉
      (enhancedDelete ⟨["a.jpg", "b.png"], ["thumb_a.jpg"]⟩ "a.jpg").2.1.files ∧
    "thumb_a.jpg" ∉
      (enhancedDelete ⟨["a.jpg", "b.png"], ["thumb_a.jpg"]⟩ "a.jpg").2.1.thumbs :=
  C3_delete_removes_both_returns_true ⟨["a.jpg", "b.png"], ["thumb_a.jpg"]⟩
    "a.jpg" (by decide) (by decide) (by decide)

/-- C6: getOne returns null without throwing for a missing or deleted
post; with view tracking on an existing non-deleted post, one call
increments the views counter by exactly one and two sequential calls
increment it by exactly two, all other fields untouched. -/
theorem C6_getOne_view_tracking (db : Db) (id : String) (tv : Bool)
    (h : id ≠ "") :
    (findActive db id = none → getOne db id tv = (.ok none, db)) ∧
    (∀ p, findActive db id = some p →
      (getOne db id true).1 = .ok (some (incViews p)) ∧
      (incViews p).views = p.views + 1 ∧
      (getOne db id true).2 id = some (incViews p) ∧
      (getOne (getOne db id true).2 id true).2 id =
        some (incViews (incViews p)) ∧
      (incViews (incViews p)).views = p.views + 2) := by
  constructor
  · intro hn
    rw [getOne, if_neg h, hn]
  · intro p hp
    have hnd : p.status ≠ Status.deleted :=
      ((findActive_eq_some db id p).mp hp).2
    have e1 : getOne db id true =
        (.ok (some (incViews p)), dbUpdate db id (incViews p)) := by
      rw [getOne, if_neg h, hp]
      rfl
    have hat : dbUpdate db id (incViews p) id = some (incViews p) := by
      rw [dbUpdate, if_pos rfl]
    have hfa2 : findActive (dbUpdate db id (incViews p)) id =
        some (incViews p) :=
      (findActive_eq_some _ id _).mpr ⟨hat, hnd⟩
    have e2 : getOne (dbUpdate db id (incViews p)) id true =
        (.ok (some (incViews (incViews p))),
         dbUpdate (dbUpdate db id (incViews p)) id (incViews (incViews p))) := by
      rw [getOne, if_neg h, hfa2]
      rfl
    refine ⟨?_, rfl, ?_, ?_, rfl⟩
    · rw [e1]
    · rw [e1]
      exact hat
    · rw [e1]
      show (getOne (dbUpdate db id (incViews p)) id true).2 id =
        some (incViews (incViews p))
      rw [e2]
      show dbUpdate (dbUpdate db id (incViews p)) id
        (incViews (incViews p)) id = some (incViews (incViews p))
      rw [dbUpdate, if_pos rfl]

/-- Demonstration non-deleted post with some views. -/
def activePost : Post :=
  { title := "T", body := "Bbbbbbbbbb", price := 5, category := "c1",
    tags := ["eco"], status := Status.active, views := 10, featured := false,
    image := some "img.jpg", createdBy := some "u1", updatedBy := none,
    updatedAt := 0 }

/-- Demonstration posts collection holding only activePost under p1. -/
def dbActive : Db := fun i => if i = "p1" then some activePost else none

/-- Witness for C6: a missing id yields null with the collection
unchanged, and two tracked reads of p1 raise views from 10 to 12. -/
theorem C6_getOne_view_tracking_witness :
    getOne dbActive "nope" true = (.ok none, dbActive) ∧
    (getOne dbActive "p1" true).1 = .ok (some (incViews activePost)) ∧
    (incViews activePost).views = 11 ∧
    (getOne (getOne dbActive "p1" true).2 "p1" true).2 "p1" =
      some (incViews (incViews activePost)) ∧
    (incViews (incViews activePost)).views = 12 := by
  refine ⟨(C6_getOne_view_tracking dbActive "nope" true (by decide)).1
    (by decide), ?_, rfl, ?_, rfl⟩
  · exact ((C6_getOne_view_tracking dbActive "p1" true (by decide)).2
      activePost (by decide)).1
  · exact ((C6_getOne_view_tracking dbActive "p1" true (by decide)).2
      activePost (by decide)).2.2.2.1

/-- C9: toggleFeatured on an existing non-deleted post flips only the
featured flag, the updatedBy stamp and the updatedAt timestamp, and two
sequential applications restore the original featured value with all other
content fields untouched throughout. -/
theorem C9_toggleFeatured_involution (db : Db) (id uid uid2 : String)
    (now now2 : ℕ) (p : Post) (hp : db id = some p)
    (hnd : p.status ≠ Status.deleted) :
    (toggleFeatured db id uid now).1 = .ok (togglePost p uid now) ∧
    (toggleFeatured db id uid now).2 id = some (togglePost p uid now) ∧
    togglePost p uid now =
      { p with
          featured := !p.featured, updatedBy := some uid, updatedAt := now } ∧
    (toggleFeatured (toggleFeatured db id uid now).2 id uid2 now2).2 id =
      some (togglePost (togglePost p uid now) uid2 now2) ∧
    togglePost (togglePost p uid now) uid2 now2 =
      { p with
          featured := p.featured, updatedBy := some uid2,
          updatedAt := now2 } := by
  have hfa : findActive db id = some p :=
    (findActive_eq_some db id p).mpr ⟨hp, hnd⟩
  have e1 : toggleFeatured db id uid now =
      (.ok (togglePost p uid now), dbUpdate db id (togglePost p uid now)) := by
    rw [toggleFeatured, hfa]
  have hat : dbUpdate db id (togglePost p uid now) id =
      some (togglePost p uid now) := by
    rw [dbUpdate, if_pos rfl]
  have hfa2 : findActive (dbUpdate db id (togglePost p uid now)) id =
      some (togglePost p uid now) :=
    (findActive_eq_some _ id _).mpr ⟨hat, hnd⟩
  refine ⟨?_, ?_, rfl, ?_, ?_⟩
  · rw [e1]
  · rw [e1]
    exact hat
  · rw [e1]
    show (toggleFeatured (dbUpdate db id (togglePost p uid now))
      id uid2 now2).2 id = some (togglePost (togglePost p uid now) uid2 now2)
    rw [toggleFeatured, hfa2]
    show dbUpdate (dbUpdate db id (togglePost p uid now)) id
      (togglePost (togglePost p uid now) uid2 now2) id =
      some (togglePost (togglePost p uid now) uid2 now2)
    rw [dbUpdate, if_pos rfl]
  · show { p with
        featured := !(!p.featured), updatedBy := some uid2,
        updatedAt := now2 } =
      { p with
        featured := p.featured, updatedBy := some uid2, updatedAt := now2 }
    rw [Bool.not_not]

/-- Witness for C9 on a concrete featured-false post: two toggles restore
featured while stamping the auditing fields. -/
theorem C9_toggleFeatured_involution_witness :
    (toggleFeatured dbActive "p1" "u7" 4).1 =
      .ok (togglePost activePost "u7" 4) ∧
    (toggleFeatured dbActive "p1" "u7" 4).2 "p1" =
      some (togglePost activePost "u7" 4) ∧
    (toggleFeatured (toggleFeatured dbActive "p1" "u7" 4).2 "p1" "u8" 5).2 "p1" =
      some (togglePost (togglePost activePost "u7" 4) "u8" 5) ∧
    togglePost (togglePost activePost "u7" 4) "u8" 5 =
      { activePost with
          featured := activePost.featured, updatedBy := some "u8",
          updatedAt := 5 } := by
  have h := C9_toggleFeatured_involution dbActive "p1" "u7" "u8" 4 5 activePost
    (by decide) (by decide)
  exact ⟨h.1, h.2.1, h.2.2.2.1, h.2.2.2.2⟩

/-- A valid upload is written under the fresh name with a save event,
whatever the thumbnail outcome. -/
theorem enhancedSave_ok_shape (st : FileStore) (f : FileData) (n : String)
    (tOk : Bool) (hv : validateFile f = .ok ()) :
    ∃ fi st1, enhancedSave st (some f) n tOk = (.ok fi, st1, [.savedFile n]) ∧
      fi.fileName = n ∧ st1.files = st.files ++ [n] := by
  by_cases hb : (strStartsWith f.mimetype "image/" && tOk) = true
  · refine ⟨FileInfo.mk f.name n (some ("thumb_" ++ n)) f.size f.mimetype,
      ⟨st.files ++ [n], st.thumbs ++ ["thumb_" ++ n]⟩, ?_, rfl, rfl⟩
    unfold enhancedSave
    simp only [hv]
    rw [if_pos hb]
  · refine ⟨FileInfo.mk f.name n none f.size f.mimetype,
      ⟨st.files ++ [n], st.thumbs⟩, ?_, rfl, rfl⟩
    unfold enhancedSave
    simp only [hv]
    rw [if_neg hb]

/-- Deleting an existing original with a nonempty name removes it from the
directory and records the delete event. -/
theorem enhancedDelete_shape (st : FileStore) (x : String) (hx : x ≠ "")
    (hmem : x ∈ st.files) :
    enhancedDelete st x =
      (.ok true,
       ⟨st.files.erase x,
        if ("thumb_" ++ x) ∈ st.thumbs then st.thumbs.erase ("thumb_" ++ x)
        else st.thumbs⟩,
       [.deletedFile x]) := by
  rw [enhancedDelete, if_neg hx, if_pos hmem, if_pos hmem]

/-- In a trace consisting of the save of the new file followed by the
delete of the old one, the save comes first. -/
theorem newBeforeOld_pair (a b : String) :
    newBeforeOld [.savedFile a, .deletedFile b] a b = true := by
  have h1 : eventIdx [FsEvent.savedFile a, FsEvent.deletedFile b]
      (FsEvent.savedFile a) = some 0 := by
    rw [eventIdx, if_pos rfl]
  have h2 : eventIdx [FsEvent.savedFile a, FsEvent.deletedFile b]
      (FsEvent.deletedFile b) = some 1 := by
    rw [eventIdx, if_neg (by intro h; exact FsEvent.noConfusion h)]
    rw [eventIdx, if_pos rfl]
    rfl
  rw [newBeforeOld, h1, h2]
  rfl

/-- Demonstration valid upload. -/
def demoUpload : FileData :=
  { name := "photo.png", mimetype := "image/png", size := 1000 }

/-- Demonstration creation body. -/
def demoCreate : CreateData :=
  { title := "Amazing Product", body := "A body over ten characters",
    price := 99, category := "c1" }

/-- C1: with an image whose save succeeds and a database write that fails,
create raises the ReferenceError coming from the unbound fileInfo in its
catch block, so the compensating delete never runs: the saved file is left
in the store and the caller does not receive the wrapped creation error. -/
theorem C1_create_cleanup_never_runs :
    validateFile demoUpload = .ok () ∧
    (advCreate (fun _ => none) ⟨[], []⟩ demoCreate (some demoUpload) "u1" "p1"
       "f1.png" true false 0).1 = .error .referenceErrorFileInfo ∧
    (advCreate (fun _ => none) ⟨[], []⟩ demoCreate (some demoUpload) "u1" "p1"
       "f1.png" true false 0).2.2.files = ["f1.png"] := by
  refine ⟨rfl, by decide, by decide⟩

/-- Demonstration post whose stored image is old.jpg. -/
def postWithOldImage : Post :=
  { title := "T", body := "Bbbbbbbbbb", price := 1, category := "c1",
    tags := [], status := Status.active, views := 0, featured := false,
    image := some "old.jpg", createdBy := some "u1", updatedBy := none,
    updatedAt := 0 }

/-- Demonstration posts collection holding postWithOldImage under p1. -/
def dbOldImage : Db := fun i => if i = "p1" then some postWithOldImage else none

/-- Demonstration replacement upload. -/
def newUpload : FileData :=
  { name := "n.png", mimetype := "image/png", size := 10 }

/-- An edit body that changes no field. -/
def emptyEdit : EditData := {}

/-- C4 counterexample: the legacy updateWithImage path edits an existing
non-deleted post supplying a new image, yet its trace deletes the old
image before saving the new one, so the save of the new file does not
precede the delete of the old one. -/
theorem C4_updateWithImage_old_deleted_first :
    postWithOldImage.status ≠ Status.deleted ∧
    (updateWithImage dbOldImage ⟨["old.jpg"], []⟩ "p1" emptyEdit
       (some newUpload) "new.png" 1).2.2.2 =
      [.deletedFile "old.jpg", .savedFile "new.png"] ∧
    newBeforeOld [.deletedFile "old.jpg", .savedFile "new.png"]
      "new.png" "old.jpg" = false := by
  exact ⟨by decide, by decide, by decide⟩

/-- C4 (amended, on the mounted AdvancedPostService.edit): editing an
existing non-deleted post with a valid new image saves the new file
strictly before deleting the old one, and afterwards the old file is gone
from disk, the new file is on disk, and the updated record references the
new file. -/
theorem C4_edit_new_before_old (db : Db) (st : FileStore) (d : EditData)
    (id uid : String) (f : FileData) (freshName : String) (thumbOk : Bool)
    (now : ℕ) (p : Post) (old : String)
    (hid : id ≠ "") (hp : db id = some p) (hnd : p.status ≠ Status.deleted)
    (hpi : p.image = some old) (holdne : old ≠ "")
    (hv : validateFile f = .ok ()) (holdmem : old ∈ st.files)
    (hfresh : freshName ∉ st.files) (hne : freshName ≠ old)
    (hnodup : st.files.Nodup) :
    (advEdit db st d id uid (some f) freshName thumbOk now).2.2.2 =
      [.savedFile freshName, .deletedFile old] ∧
    newBeforeOld (advEdit db st d id uid (some f) freshName thumbOk now).2.2.2
      freshName old = true ∧
    (advEdit db st d id uid (some f) freshName thumbOk now).1 =
      .ok (applyEdit p d (some uid) (some freshName) now) ∧
    (applyEdit p d (some uid) (some freshName) now).image = some freshName ∧
    (advEdit db st d id uid (some f) freshName thumbOk now).2.1 id =
      some (applyEdit p d (some uid) (some freshName) now) ∧
    freshName ∈ (advEdit db st d id uid (some f) freshName thumbOk now).2.2.1.files ∧
    old ∉ (advEdit db st d id uid (some f) freshName thumbOk now).2.2.1.files := by
  have hfa : findActive db id = some p :=
    (findActive_eq_some db id p).mpr ⟨hp, hnd⟩
  obtain ⟨fi, st1, hsave, hfn, hfiles⟩ :=
    enhancedSave_ok_shape st f freshName thumbOk hv
  have holdmem1 : old ∈ st1.files := by
    rw [hfiles]
    exact List.mem_append_left _ holdmem
  have hdel := enhancedDelete_shape st1 old holdne holdmem1
  have e : advEdit db st d id uid (some f) freshName thumbOk now =
      (.ok (applyEdit p d (some uid) (some fi.fileName) now),
       dbUpdate db id (applyEdit p d (some uid) (some fi.fileName) now),
       (delSwallow st1 old).1,
       [FsEvent.savedFile freshName] ++ (delSwallow st1 old).2) := by
    simp only [advEdit, hid, hfa, hsave, hpi, holdne, if_neg, ite_false,
      if_false]
  have hds : delSwallow st1 old =
      (⟨st1.files.erase old,
        if ("thumb_" ++ old) ∈ st1.thumbs then
          st1.thumbs.erase ("thumb_" ++ old)
        else st1.thumbs⟩,
       [FsEvent.deletedFile old]) := by
    rw [delSwallow, hdel]
  have e2 : advEdit db st d id uid (some f) freshName thumbOk now =
      (.ok (applyEdit p d (some uid) (some freshName) now),
       dbUpdate db id (applyEdit p d (some uid) (some freshName) now),
       ⟨st1.files.erase old,
        if ("thumb_" ++ old) ∈ st1.thumbs then
          st1.thumbs.erase ("thumb_" ++ old)
        else st1.thumbs⟩,
       [FsEvent.savedFile freshName, FsEvent.deletedFile old]) := by
    rw [e, hds, hfn]
    rfl
  have hnodup1 : st1.files.Nodup := by
    rw [hfiles]
    simp [List.nodup_append, hnodup, hfresh]
  refine ⟨?_, ?_, ?_, ?_, ?_, ?_, ?_⟩
  · rw [e2]
  · rw [e2]
    exact newBeforeOld_pair freshName old
  · rw [e2]
  · rfl
  · rw [e2]
    show dbUpdate db id (applyEdit p d (some uid) (some freshName) now) id =
      some (applyEdit p d (some uid) (some freshName) now)
    rw [dbUpdate, if_pos rfl]
  · rw [e2]
    show freshName ∈ st1.files.erase old
    rw [List.mem_erase_of_ne hne, hfiles]
    exact List.mem_append_right _ (List.mem_singleton.mpr rfl)
  · rw [e2]
    show old ∉ st1.files.erase old
    exact hnodup1.not_mem_erase

/-- Witness for the amended C4 on a concrete post, store and upload. -/
theorem C4_edit_new_before_old_witness :
    (advEdit dbOldImage ⟨["old.jpg"], []⟩ emptyEdit "p1" "u2"
       (some newUpload) "new.png" true 1).2.2.2 =
      [.savedFile "new.png", .deletedFile "old.jpg"] ∧
    newBeforeOld (advEdit dbOldImage ⟨["old.jpg"], []⟩ emptyEdit "p1" "u2"
       (some newUpload) "new.png" true 1).2.2.2 "new.png" "old.jpg" = true ∧
    (advEdit dbOldImage ⟨["old.jpg"], []⟩ emptyEdit "p1" "u2"
       (some newUpload) "new.png" true 1).1 =
      .ok (applyEdit postWithOldImage emptyEdit (some "u2") (some "new.png") 1) ∧
    (applyEdit postWithOldImage emptyEdit (some "u2") (some "new.png") 1).image =
      some "new.png" ∧
    (advEdit dbOldImage ⟨["old.jpg"], []⟩ emptyEdit "p1" "u2"
       (some newUpload) "new.png" true 1).2.1 "p1" =
      some (applyEdit postWithOldImage emptyEdit (some "u2") (some "new.png") 1) ∧
    "new.png" ∈ (advEdit dbOldImage ⟨["old.jpg"], []⟩ emptyEdit "p1" "u2"
       (some newUpload) "new.png" true 1).2.2.1.files ∧
    "old.jpg" ∉ (advEdit dbOldImage ⟨["old.jpg"], []⟩ emptyEdit "p1" "u2"
       (some newUpload) "new.png" true 1).2.2.1.files :=
  C4_edit_new_before_old dbOldImage ⟨["old.jpg"], []⟩ emptyEdit "p1" "u2"
    newUpload "new.png" true 1 postWithOldImage "old.jpg"
    (by decide) (by decide) (by decide) (by decide) (by decide) rfl
    (by decide) (by decide) (by decide) (by decide)

/-- C5: for a post satisfying the non-price clauses of a getAll query with
nonnegative bounds, inclusion in the result set holds exactly when
(minPrice = 0 or price at least minPrice) and (maxPrice = 0 or price at
most maxPrice); a bound of 0 means unbounded on that side. -/
theorem C5_price_range_inclusion (tm : String → Post → Bool)
    (o : GetAllOptions) (p : Post) (hmn : 0 ≤ o.minPrice)
    (hmx : 0 ≤ o.maxPrice) (hother : matchesNonPrice tm o p = true) :
    (matchesQuery tm (buildQuery o) p = true ↔
      (o.minPrice = 0 ∨ o.minPrice ≤ p.price) ∧
      (o.maxPrice = 0 ∨ p.price ≤ o.maxPrice)) := by
  unfold matchesNonPrice at hother
  unfold matchesQuery buildQuery at hother ⊢
  simp only [Bool.and_eq_true] at hother ⊢
  obtain ⟨⟨⟨⟨⟨h1, h2⟩, h3⟩, h4⟩, h5⟩, h6⟩ := hother
  simp only [h1, h2, h3, h5, h6, true_and, and_true]
  by_cases h1p : 0 < o.minPrice <;> by_cases h2p : 0 < o.maxPrice
  · simp [h1p, h2p, h1p.ne', h2p.ne']
  · have hmx0 : o.maxPrice = 0 := le_antisymm (not_lt.mp h2p) hmx
    simp [h1p, h2p, h1p.ne', hmx0]
  · have hmn0 : o.minPrice = 0 := le_antisymm (not_lt.mp h1p) hmn
    simp [h1p, h2p, h2p.ne', hmn0]
  · have hmn0 : o.minPrice = 0 := le_antisymm (not_lt.mp h1p) hmn
    have hmx0 : o.maxPrice = 0 := le_antisymm (not_lt.mp h2p) hmx
    simp [h1p, h2p, hmn0, hmx0]

/-- Demonstration getAll options with only a lower price bound. -/
def demoOpts : GetAllOptions := { minPrice := 5 }

/-- A text-search oracle that matches everything (irrelevant here since the
demonstration options carry no search term). -/
def alwaysMatch : String → Post → Bool := fun _ _ => true

/-- Witness for C5: with minPrice 5 and maxPrice 0, the post of price 5 is
included exactly per the claimed range condition. -/
theorem C5_price_range_inclusion_witness :
    matchesQuery alwaysMatch (buildQuery demoOpts) activePost = true ↔
      (demoOpts.minPrice = 0 ∨ demoOpts.minPrice ≤ activePost.price) ∧
      (demoOpts.maxPrice = 0 ∨ activePost.price ≤ demoOpts.maxPrice) :=
  C5_price_range_inclusion alwaysMatch demoOpts activePost
    (show (0 : ℚ) ≤ 5 by norm_num) (show (0 : ℚ) ≤ 0 by norm_num) (by decide)

end EcoSpine
